import Mathlib

/-!
# Verification of the RPC watch extractor

Shallow embedding of `src/core/direct-rpc-server/src/rpc_watch_extractor.rs`
(the `must_be_watched` method of `RpcWatchExtractor`), together with models of
the external data types and codecs it consumes (`RpcResponse`,
`RpcReturnValue`, `DirectRequestStatus`, hex decoding, SCALE decoding), which
are repository code outside `src/` and are therefore modelled from the spec.

Bytes are modelled as natural numbers (values `< 256` where produced by the
encoders); fallible decoding is `Except String`.
-/

namespace RpcWatch

/-- Modelled from the spec: numeric value of one hexadecimal digit character.
Part of the external hex codec ("decodes hex-prefixed strings into raw
bytes"), which is repository code missing from `src/`. -/
def hexDigitVal (c : Char) : Option Nat :=
  if '0' ≤ c ∧ c ≤ '9' then some (c.toNat - '0'.toNat)
  else if 'a' ≤ c ∧ c ≤ 'f' then some (c.toNat - 'a'.toNat + 10)
  else if 'A' ≤ c ∧ c ≤ 'F' then some (c.toNat - 'A'.toNat + 10)
  else none

/-- Modelled from the spec: decode a list of hex digit characters, two at a
time, into bytes. Fails on an odd-length list or a non-hex character. -/
def hexDecodePairs : List Char → Option (List Nat)
  | [] => some []
  | [_] => none
  | hi :: lo :: rest => do
    let h ← hexDigitVal hi
    let l ← hexDigitVal lo
    let t ← hexDecodePairs rest
    some ((16 * h + l) :: t)

/-- Modelled from the spec: the external hex codec. Strips an optional `0x`
mark and decodes the remaining characters as bytes. -/
def decodeHex (s : String) : Except String (List Nat) :=
  let chars :=
    match s.data with
    | '0' :: 'x' :: rest => rest
    | l => l
  match hexDecodePairs chars with
  | some bs => .ok bs
  | none => .error "invalid hex"

/-- Modelled from the spec: SCALE compact-integer decoding, used by the
external envelope codec for length prefixes. Consumes one, two or four bytes
according to the mode stored in the two low bits of the first byte; the
big-integer mode is not needed by any value this component handles and is
rejected. Returns the decoded value and the remaining bytes. -/
def compactDecode : List Nat → Except String (Nat × List Nat)
  | [] => .error "compact: end of input"
  | b :: rest =>
    if b % 4 = 0 then .ok (b / 4, rest)
    else if b % 4 = 1 then
      match rest with
      | b2 :: rest2 => .ok ((b + 256 * b2) / 4, rest2)
      | [] => .error "compact: end of input"
    else if b % 4 = 2 then
      match rest with
      | b2 :: b3 :: b4 :: rest4 => .ok ((b + 256 * (b2 + 256 * (b3 + 256 * b4))) / 4, rest4)
      | _ => .error "compact: end of input"
    else .error "compact: big mode unsupported"

/-- Modelled from the spec: SCALE compact-integer encoding, inverse of
`compactDecode` for values below `2^30`. -/
def compactEncode (n : Nat) : List Nat :=
  if n < 64 then [4 * n]
  else if n < 16384 then [(4 * n + 1) % 256, (4 * n + 1) / 256]
  else [(4 * n + 2) % 256, (4 * n + 2) / 256 % 256,
        (4 * n + 2) / 256 / 256 % 256, (4 * n + 2) / 256 / 256 / 256 % 256]

/-- Split off exactly `n` leading bytes, failing when fewer are available. -/
def splitAtExact (n : Nat) (bs : List Nat) : Except String (List Nat × List Nat) :=
  if bs.length < n then .error "not enough bytes" else .ok (bs.take n, bs.drop n)

/-- Modelled from the spec: SCALE decoding of a byte vector (compact length
followed by that many bytes). -/
def decodeVecU8 (bs : List Nat) : Except String (List Nat × List Nat) := do
  let (n, r) ← compactDecode bs
  splitAtExact n r

/-- Modelled from the spec: SCALE decoding of a boolean (one byte, `0` or
`1`; anything else is invalid). -/
def decodeBool : List Nat → Except String (Bool × List Nat)
  | 0 :: rest => .ok (false, rest)
  | 1 :: rest => .ok (true, rest)
  | _ => .error "invalid bool"

/-- Modelled from the spec: the sub-states of the trusted-operation-status
family ("ready", "broadcast", "in-block", "finalized", "invalid", "dropped" —
an external enumeration of which only family membership matters here). -/
inductive TrustedOperationStatus
  | ready
  | broadcast
  | inBlock
  | finalized
  | invalid
  | dropped
deriving DecidableEq

/-- Modelled from the spec: the discriminated status tag carried by the
envelope; only the `trustedOperationStatus` family carries a watchable hash. -/
inductive DirectRequestStatus
  | ok
  | trustedOperationStatus (s : TrustedOperationStatus)
  | error
deriving DecidableEq

/-- Modelled from the spec: SCALE decoding of a trusted-operation sub-status
(one tag byte). -/
def decodeTOStatus : List Nat → Except String (TrustedOperationStatus × List Nat)
  | 0 :: r => .ok (.ready, r)
  | 1 :: r => .ok (.broadcast, r)
  | 2 :: r => .ok (.inBlock, r)
  | 3 :: r => .ok (.finalized, r)
  | 4 :: r => .ok (.invalid, r)
  | 5 :: r => .ok (.dropped, r)
  | _ => .error "invalid trusted operation status"

/-- Modelled from the spec: SCALE decoding of the status tag (one tag byte,
then the sub-status for the trusted-operation family). -/
def decodeDRStatus : List Nat → Except String (DirectRequestStatus × List Nat)
  | 0 :: r => .ok (.ok, r)
  | 1 :: r => do
    let (s, r2) ← decodeTOStatus r
    .ok (.trustedOperationStatus s, r2)
  | 2 :: r => .ok (.error, r)
  | _ => .error "invalid direct request status"

/-- Modelled from the spec: the structured return-value envelope, with an
opaque byte payload `value`, the watch flag `do_watch`, and the status tag. -/
structure RpcReturnValue where
  value : List Nat
  do_watch : Bool
  status : DirectRequestStatus
deriving DecidableEq

/-- Modelled from the spec: SCALE decoding of the envelope (fields in
declaration order: value, watch flag, status). -/
def decodeRpcReturnValue (bs : List Nat) : Except String (RpcReturnValue × List Nat) := do
  let (v, r1) ← decodeVecU8 bs
  let (w, r2) ← decodeBool r1
  let (st, r3) ← decodeDRStatus r2
  .ok ({ value := v, do_watch := w, status := st }, r3)

/-- Modelled from the spec: the envelope codec's `from_hex` (hex-decode the
string, then SCALE-decode an envelope from its leading bytes). -/
def RpcReturnValue.from_hex (s : String) : Except String RpcReturnValue := do
  let bs ← decodeHex s
  let (rv, _) ← decodeRpcReturnValue bs
  .ok rv

/-- Modelled from the spec: the identifier field of an RPC response. -/
inductive Id
  | number (n : Nat)
  | text (s : String)
deriving DecidableEq

/-- Modelled from the spec: the RPC response wire record. Only `result` (a
hex-encoded string) is read by the watch extractor. -/
structure RpcResponse where
  jsonrpc : String
  result : String
  id : Id
deriving DecidableEq

/-- Capability interface of the generic hash type parameter, from the trait
bounds `Hash: RpcHash + Decode` in the source: `from_hex` decodes a
hex-prefixed string directly as a hash, and `decode` SCALE-decodes a hash
from the leading bytes of a byte list, returning the remainder (the source
calls `Decode::decode(&mut value.as_slice())`, which consumes a prefix of the
slice and leaves the rest unread). -/
structure RpcHash (Hash : Type) where
  from_hex : String → Except String Hash
  decode : List Nat → Except String (Hash × List Nat)

/-- Error type of the direct RPC server: `encodingError` wraps a codec error
from decoding the envelope payload as a hash, `other` wraps the description
of any other failure. -/
inductive DirectRpcError
  | encodingError (e : String)
  | other (msg : String)
deriving DecidableEq

/-- Embedding of `RpcWatchExtractor::must_be_watched` from
`src/core/direct-rpc-server/src/rpc_watch_extractor.rs` (lines 58-88).
The generic hash type's codec capabilities are passed explicitly. -/
def must_be_watched {Hash : Type} (hashCodec : RpcHash Hash)
    (rpc_response : RpcResponse) : Except DirectRpcError (Option Hash) :=
  match RpcReturnValue.from_hex rpc_response.result with
  | .error e =>
    match hashCodec.from_hex rpc_response.result with
    | .ok hash => .ok (some hash)
    | .error _ => .error (.other e)
  | .ok rpc_return_value =>
    if !rpc_return_value.do_watch then .ok none
    else
      match rpc_return_value.status with
      | .trustedOperationStatus _ =>
        match hashCodec.decode rpc_return_value.value with
        | .ok (h, _) => .ok (some h)
        | .error e => .error (.encodingError e)
      | _ => .ok none

/-- SCALE encoding of a string hash: compact length followed by the character
code of each character (faithful for ASCII strings, which is what the
source's tests use as hashes, e.g. `"rpc_hash"`). -/
def encodeString (s : String) : List Nat :=
  compactEncode s.length ++ s.data.map Char.toNat

/-- SCALE decoding of a string hash from the leading bytes of a byte list. -/
def decodeString (bs : List Nat) : Except String (String × List Nat) :=
  match compactDecode bs with
  | .error e => .error e
  | .ok (n, r1) =>
    match splitAtExact n r1 with
    | .error e => .error e
    | .ok (chars, r2) => .ok (String.mk (chars.map Char.ofNat), r2)

/-- Concrete instantiation of the hash capability at `Hash := String`,
mirroring the source's test instantiation `RpcWatchExtractor::<String>`. -/
def stringRpcHash : RpcHash String where
  from_hex s := do
    let bs ← decodeHex s
    let (h, _) ← decodeString bs
    .ok h
  decode := decodeString

/-! ## Round-trip lemmas for the concrete string-hash codec -/

/-- Compact decoding inverts compact encoding for values below `2^30`, and
leaves the trailing bytes untouched. -/
theorem compactDecode_compactEncode (n : Nat) (rest : List Nat)
    (h : n < 1073741824) :
    compactDecode (compactEncode n ++ rest) = .ok (n, rest) := by
  unfold compactEncode
  by_cases h1 : n < 64
  · rw [if_pos h1]
    show compactDecode (4 * n :: rest) = _
    simp only [compactDecode]
    rw [if_pos (by omega)]
    simp only [Except.ok.injEq, Prod.mk.injEq]
    exact ⟨by omega, trivial⟩
  · rw [if_neg h1]
    by_cases h2 : n < 16384
    · rw [if_pos h2]
      show compactDecode ((4 * n + 1) % 256 :: (4 * n + 1) / 256 :: rest) = _
      simp only [compactDecode]
      rw [if_neg (by omega), if_pos (by omega)]
      simp only [Except.ok.injEq, Prod.mk.injEq]
      exact ⟨by omega, trivial⟩
    · rw [if_neg h2]
      show compactDecode ((4 * n + 2) % 256 :: (4 * n + 2) / 256 % 256 ::
          (4 * n + 2) / 256 / 256 % 256 :: (4 * n + 2) / 256 / 256 / 256 % 256 :: rest) = _
      simp only [compactDecode]
      rw [if_neg (by omega), if_neg (by omega), if_pos (by omega)]
      simp only [Except.ok.injEq, Prod.mk.injEq]
      exact ⟨by omega, trivial⟩

/-- Splitting a concatenation at the length of its first part recovers both
parts. -/
theorem splitAtExact_append (l1 l2 : List Nat) :
    splitAtExact l1.length (l1 ++ l2) = .ok (l1, l2) := by
  unfold splitAtExact
  rw [if_neg (by simp)]
  simp

/-- String decoding inverts string encoding for strings shorter than `2^30`
characters, and leaves trailing bytes unconsumed. -/
theorem decodeString_encodeString (s : String) (t : List Nat)
    (h : s.length < 1073741824) :
    decodeString (encodeString s ++ t) = .ok (s, t) := by
  have hlen : (s.data.map Char.toNat).length = s.length := by
    rw [List.length_map]
    rfl
  unfold encodeString
  rw [List.append_assoc]
  simp only [decodeString, compactDecode_compactEncode s.length _ h]
  rw [show s.length = (s.data.map Char.toNat).length from hlen.symm,
    splitAtExact_append]
  simp [List.map_map, Function.comp_def, Char.ofNat_toNat]

/-! ## Claim theorems -/

/-- Claim C1: for every RpcResponse whose result decodes as a valid
ReturnValueEnvelope with do_watch = true and status in the
trusted-operation-status family and value a validly encoded Hash h,
must_be_watched returns Ok(Some(h)). -/
theorem must_be_watched_watched_hash {Hash : Type} (c : RpcHash Hash)
    (r : RpcResponse) (env : RpcReturnValue) (s : TrustedOperationStatus)
    (h : Hash)
    (henv : RpcReturnValue.from_hex r.result = .ok env)
    (hw : env.do_watch = true)
    (hs : env.status = .trustedOperationStatus s)
    (hv : c.decode env.value = .ok (h, [])) :
    must_be_watched c r = .ok (some h) := by
  simp [must_be_watched, henv, hw, hs, hv]

/-- Witness for C1 at a concrete response carrying the hash "ab". -/
theorem must_be_watched_watched_hash_witness :
    must_be_watched stringRpcHash
      { jsonrpc := "2.0", result := "0x0c086162010100", id := .number 1 } =
      .ok (some "ab") :=
  must_be_watched_watched_hash stringRpcHash
    { jsonrpc := "2.0", result := "0x0c086162010100", id := .number 1 }
    { value := [8, 97, 98], do_watch := true,
      status := .trustedOperationStatus .ready }
    .ready "ab" rfl rfl rfl rfl

/-- Claim C2: for every RpcResponse whose result decodes as a valid
ReturnValueEnvelope with do_watch = false, must_be_watched returns Ok(None),
regardless of the envelope's status and value fields. -/
theorem must_be_watched_no_watch {Hash : Type} (c : RpcHash Hash)
    (r : RpcResponse) (env : RpcReturnValue)
    (henv : RpcReturnValue.from_hex r.result = .ok env)
    (hw : env.do_watch = false) :
    must_be_watched c r = .ok none := by
  simp [must_be_watched, henv, hw]

/-- Witness for C2 at a concrete response with the watch flag cleared. -/
theorem must_be_watched_no_watch_witness :
    must_be_watched stringRpcHash
      { jsonrpc := "2.0", result := "0x0c086162000100", id := .number 1 } =
      .ok none :=
  must_be_watched_no_watch stringRpcHash
    { jsonrpc := "2.0", result := "0x0c086162000100", id := .number 1 }
    { value := [8, 97, 98], do_watch := false,
      status := .trustedOperationStatus .ready }
    rfl rfl

/-- Claim C3: for every RpcResponse whose result fails to decode as a
ReturnValueEnvelope but does hex-decode directly as a valid Hash h,
must_be_watched returns Ok(Some(h)) (the legacy fallback path). -/
theorem must_be_watched_fallback_hash {Hash : Type} (c : RpcHash Hash)
    (r : RpcResponse) (e : String) (h : Hash)
    (henv : RpcReturnValue.from_hex r.result = .error e)
    (hh : c.from_hex r.result = .ok h) :
    must_be_watched c r = .ok (some h) := by
  simp [must_be_watched, henv, hh]

/-- Witness for C3 at a concrete response whose result is a bare hash. -/
theorem must_be_watched_fallback_hash_witness :
    must_be_watched stringRpcHash
      { jsonrpc := "2.0", result := "0x086162", id := .number 1 } =
      .ok (some "ab") :=
  must_be_watched_fallback_hash stringRpcHash
    { jsonrpc := "2.0", result := "0x086162", id := .number 1 }
    "invalid bool" "ab" rfl rfl

/-- Claim C4: for every RpcResponse whose result decodes as a valid
ReturnValueEnvelope with do_watch = true and status outside the
trusted-operation-status family, must_be_watched returns Ok(None) without
attempting to decode the value payload (the codec is arbitrary, so the
result cannot depend on decoding the payload). -/
theorem must_be_watched_non_operation_status {Hash : Type} (c : RpcHash Hash)
    (r : RpcResponse) (env : RpcReturnValue)
    (henv : RpcReturnValue.from_hex r.result = .ok env)
    (hw : env.do_watch = true)
    (hs : ∀ s, env.status ≠ .trustedOperationStatus s) :
    must_be_watched c r = .ok none := by
  cases hstat : env.status with
  | ok => simp [must_be_watched, henv, hw, hstat]
  | trustedOperationStatus s => exact absurd hstat (hs s)
  | error => simp [must_be_watched, henv, hw, hstat]

/-- Witness for C4 at a concrete response with status outside the family,
using a hash codec whose payload decoder always fails, showing the payload
is not consulted. -/
theorem must_be_watched_non_operation_status_witness :
    must_be_watched
      { from_hex := stringRpcHash.from_hex,
        decode := fun _ => Except.error "never" }
      { jsonrpc := "2.0", result := "0x0c0861620100", id := .number 1 } =
      .ok none :=
  must_be_watched_non_operation_status
    { from_hex := stringRpcHash.from_hex,
      decode := fun _ => Except.error "never" }
    { jsonrpc := "2.0", result := "0x0c0861620100", id := .number 1 }
    { value := [8, 97, 98], do_watch := true, status := .ok }
    rfl rfl (fun _ hcontra => DirectRequestStatus.noConfusion hcontra)

/-- Claim C5: for every RpcResponse whose result decodes as a valid
ReturnValueEnvelope with do_watch = true and status in the
trusted-operation-status family but whose value payload does not decode as a
Hash, must_be_watched fails with an EncodingError, which is a distinct error
kind from the "other" kind. -/
theorem must_be_watched_encoding_error {Hash : Type} (c : RpcHash Hash)
    (r : RpcResponse) (env : RpcReturnValue) (s : TrustedOperationStatus)
    (e : String)
    (henv : RpcReturnValue.from_hex r.result = .ok env)
    (hw : env.do_watch = true)
    (hs : env.status = .trustedOperationStatus s)
    (hv : c.decode env.value = .error e) :
    must_be_watched c r = .error (.encodingError e) ∧
      ∀ m, DirectRpcError.encodingError e ≠ .other m := by
  refine ⟨by simp [must_be_watched, henv, hw, hs, hv], ?_⟩
  intro m hcontra
  exact DirectRpcError.noConfusion hcontra

/-- Witness for C5 at a concrete response whose payload is not a valid
hash encoding. -/
theorem must_be_watched_encoding_error_witness :
    must_be_watched stringRpcHash
      { jsonrpc := "2.0", result := "0x0405010100", id := .number 1 } =
      .error (.encodingError "compact: end of input") ∧
      ∀ m, DirectRpcError.encodingError "compact: end of input" ≠ .other m :=
  must_be_watched_encoding_error stringRpcHash
    { jsonrpc := "2.0", result := "0x0405010100", id := .number 1 }
    { value := [5], do_watch := true,
      status := .trustedOperationStatus .ready }
    .ready "compact: end of input" rfl rfl rfl rfl

/-- Claim C6: for every RpcResponse whose result decodes neither as a
ReturnValueEnvelope nor as a raw Hash, must_be_watched fails with the
"other" error kind, carrying the description of the original envelope-decode
failure (not of the fallback hash-decode failure, which is arbitrary
here). -/
theorem must_be_watched_other_error {Hash : Type} (c : RpcHash Hash)
    (r : RpcResponse) (e efb : String)
    (henv : RpcReturnValue.from_hex r.result = .error e)
    (hh : c.from_hex r.result = .error efb) :
    must_be_watched c r = .error (.other e) := by
  simp [must_be_watched, henv, hh]

/-- Witness for C6 at a concrete response decodable in neither shape, with a
fallback decoder whose own error message differs from the envelope one. -/
theorem must_be_watched_other_error_witness :
    must_be_watched
      { from_hex := fun _ => Except.error "fallback failed",
        decode := decodeString }
      { jsonrpc := "2.0", result := "hello", id := .number 1 } =
      .error (.other "invalid hex") :=
  must_be_watched_other_error
    { from_hex := fun _ => Except.error "fallback failed",
      decode := decodeString }
    { jsonrpc := "2.0", result := "hello", id := .number 1 }
    "invalid hex" "fallback failed" rfl rfl

/-- Claim C7: the fallback raw-hash decode is attempted only when the
envelope decode fails: whenever the envelope decodes successfully, the
output of must_be_watched is unchanged under replacing the hash type's
from_hex capability by any other (in particular one under which the result
string is a valid raw hash), so the result is determined solely by the
envelope's fields. -/
theorem must_be_watched_envelope_shadows_fallback {Hash : Type}
    (c : RpcHash Hash) (fh : String → Except String Hash)
    (r : RpcResponse) (env : RpcReturnValue)
    (henv : RpcReturnValue.from_hex r.result = .ok env) :
    must_be_watched { from_hex := fh, decode := c.decode } r =
      must_be_watched c r := by
  simp only [must_be_watched, henv]

/-- Witness for C7 at a concrete response that is simultaneously a valid
envelope and a valid raw string hash: the raw-hash reading is ignored. -/
theorem must_be_watched_envelope_shadows_fallback_witness :
    stringRpcHash.from_hex "0x0c086162010100" = .ok "\x08ab" ∧
    must_be_watched
      { from_hex := fun _ => Except.error "no fallback",
        decode := stringRpcHash.decode }
      { jsonrpc := "2.0", result := "0x0c086162010100", id := .number 1 } =
      must_be_watched stringRpcHash
      { jsonrpc := "2.0", result := "0x0c086162010100", id := .number 1 } :=
  ⟨rfl,
    must_be_watched_envelope_shadows_fallback stringRpcHash
      (fun _ => Except.error "no fallback")
      { jsonrpc := "2.0", result := "0x0c086162010100", id := .number 1 }
      { value := [8, 97, 98], do_watch := true,
        status := .trustedOperationStatus .ready }
      rfl⟩

/-- Claim C8: must_be_watched is deterministic and pure: two invocations on
the same RpcResponse yield the same result (in this embedding it is a total
function of its input, and the input record is consumed immutably, so
non-mutation holds by construction). -/
theorem must_be_watched_deterministic {Hash : Type} (c : RpcHash Hash)
    (r₁ r₂ : RpcResponse) (h : r₁ = r₂) :
    must_be_watched c r₁ = must_be_watched c r₂ := by
  rw [h]

/-- Witness for C8 at a concrete response. -/
theorem must_be_watched_deterministic_witness :
    must_be_watched stringRpcHash
      { jsonrpc := "2.0", result := "0x0c086162010100", id := .number 1 } =
    must_be_watched stringRpcHash
      { jsonrpc := "2.0", result := "0x0c086162010100", id := .number 1 } :=
  must_be_watched_deterministic stringRpcHash
    { jsonrpc := "2.0", result := "0x0c086162010100", id := .number 1 }
    { jsonrpc := "2.0", result := "0x0c086162010100", id := .number 1 }
    rfl

/-- Claim C9: the result of must_be_watched depends only on the result field
of the RpcResponse: responses equal in result but arbitrary in id and
jsonrpc produce equal outputs. -/
theorem must_be_watched_result_only {Hash : Type} (c : RpcHash Hash)
    (r₁ r₂ : RpcResponse) (h : r₁.result = r₂.result) :
    must_be_watched c r₁ = must_be_watched c r₂ := by
  unfold must_be_watched
  rw [h]

/-- Witness for C9 at two concrete responses differing in id and jsonrpc. -/
theorem must_be_watched_result_only_witness :
    must_be_watched stringRpcHash
      { jsonrpc := "2.0", result := "0x0c086162010100", id := .number 1 } =
    must_be_watched stringRpcHash
      { jsonrpc := "json", result := "0x0c086162010100", id := .text "two" } :=
  must_be_watched_result_only stringRpcHash
    { jsonrpc := "2.0", result := "0x0c086162010100", id := .number 1 }
    { jsonrpc := "json", result := "0x0c086162010100", id := .text "two" }
    rfl

/-- Claim C10: in the watchable-status branch the hash is decoded from a
prefix of the envelope's value bytes without requiring full consumption:
at the concrete string-hash instantiation, a value consisting of a valid
hash encoding followed by arbitrary trailing bytes still yields
Ok(Some(hash)). -/
theorem must_be_watched_trailing_bytes
    (r : RpcResponse) (env : RpcReturnValue) (s : TrustedOperationStatus)
    (hstr : String) (trailing : List Nat)
    (henv : RpcReturnValue.from_hex r.result = .ok env)
    (hw : env.do_watch = true)
    (hs : env.status = .trustedOperationStatus s)
    (hval : env.value = encodeString hstr ++ trailing)
    (hlen : hstr.length < 1073741824) :
    must_be_watched stringRpcHash r = .ok (some hstr) := by
  have hdec : stringRpcHash.decode env.value = .ok (hstr, trailing) := by
    rw [hval]
    exact decodeString_encodeString hstr trailing hlen
  simp [must_be_watched, henv, hw, hs, hdec]

/-- Witness for C10 at a concrete response whose payload is the encoding of
"ab" followed by a trailing byte 255. -/
theorem must_be_watched_trailing_bytes_witness :
    must_be_watched stringRpcHash
      { jsonrpc := "2.0", result := "0x10086162ff010100", id := .number 1 } =
      .ok (some "ab") :=
  must_be_watched_trailing_bytes
    { jsonrpc := "2.0", result := "0x10086162ff010100", id := .number 1 }
    { value := [8, 97, 98, 255], do_watch := true,
      status := .trustedOperationStatus .ready }
    .ready "ab" [255] rfl rfl rfl rfl (by decide)

end RpcWatch
